import Mathlib

/-!
Shallow embedding of the `secure` HTTP-hardening handler (handler.go) and
proofs about its configuration validation, header construction, and
per-request interception behaviour.

Conventions of the embedding:
* Go `time.Duration` values are integers counting nanoseconds (`Int`);
  no arithmetic below approaches the `int64` bounds, so no wraparound is
  modelled.
* Go `*T` option pointers become `Option T`; a function that the source
  only ever calls on a non-nil pointer takes the dereferenced value as an
  explicit argument.
* Fallible functions return `Except String α`, carrying the exact error
  strings of the source; `panic` in the request handler becomes a terminal
  `Outcome.panicked`.
-/

namespace Secure

/-- One character of Go's `%q` quoting (`strconv.Quote`): `"` and `\`
are escaped, printable ASCII is kept verbatim, the standard control
escapes and `\x`/`\u`/`\U` hexadecimal escapes cover the rest. Go decides
printability of non-ASCII runes with `unicode.IsPrint`; this embedding
treats every code point at or above U+00A0 as printable, which agrees
with Go on all characters that occur in header values. -/
def goQuoteChar (c : Char) : String :=
  if c = '"' then "\\\""
  else if c = '\\' then "\\\\"
  else if 0x20 ≤ c.toNat ∧ c.toNat < 0x7f then String.singleton c
  else if c = '\x07' then "\\a"
  else if c = '\x08' then "\\b"
  else if c = '\x0c' then "\\f"
  else if c = '\n' then "\\n"
  else if c = '\r' then "\\r"
  else if c = '\t' then "\\t"
  else if c = '\x0b' then "\\v"
  else if c.toNat < 0x80 then "\\x" ++ hex2 c.toNat
  else if 0xa0 ≤ c.toNat then String.singleton c
  else if c.toNat < 0x10000 then "\\u" ++ hex4 c.toNat
  else "\\U" ++ hex8 c.toNat
where
  hexDigitChar (n : Nat) : Char :=
    if n < 10 then Char.ofNat (48 + n) else Char.ofNat (87 + n)
  hex2 (n : Nat) : String :=
    String.mk [hexDigitChar (n / 16 % 16), hexDigitChar (n % 16)]
  hex4 (n : Nat) : String := hex2 (n / 256) ++ hex2 (n % 256)
  hex8 (n : Nat) : String := hex4 (n / 65536) ++ hex4 (n % 65536)

/-- Go's `%q` on a string: the quoted, escaped form between double
quotes, as produced by `fmt.Sprintf("%q", s)`. -/
def goQuote (s : String) : String :=
  "\"" ++ String.join (s.data.map goQuoteChar) ++ "\""

/-- Embeds `fmt.Sprintf("%.f", d.Seconds())` for a `time.Duration` `d`
given in nanoseconds: the number of seconds rounded to the nearest
integer, ties to even, written in decimal. (`Duration.Seconds` returns a
`float64`; rounding the exact rational `d / 10^9` half-to-even agrees
with the float computation for every duration whose second count stays
below `2^52`, which covers all durations this package handles.) -/
def fmtSeconds (d : Int) : String :=
  let g : Int := 1000000000
  let q := Int.ediv d g
  let r := Int.emod d g
  let n : Int :=
    if 2 * r < g then q
    else if g < 2 * r then q + 1
    else if Int.emod q 2 = 0 then q else q + 1
  toString n

/-- `HSTSPreloadMinAge` from handler.go: declared as the untyped constant
`10886400` (documented as the lowest max age usable with HSTS preload,
i.e. eighteen weeks in seconds). Note that the source compares it
directly against a `time.Duration`, whose unit is nanoseconds. -/
def HSTSPreloadMinAge : Int := 10886400

/-- `HPKPOptions` from handler.go. `MaxAge` is a `time.Duration` in
nanoseconds. -/
structure HPKPOptions where
  Keys : List String
  MaxAge : Int
  IncludeSubdomains : Bool
  ReportURI : String
deriving DecidableEq

/-- `HSTSOptions` from handler.go. `MaxAge` is a `time.Duration` in
nanoseconds. -/
structure HSTSOptions where
  MaxAge : Int
  IncludeSubdomains : Bool
  Preload : Bool
deriving DecidableEq

/-- `Options` from handler.go; the two `*T` sub-policy pointers become
`Option`s. -/
structure Options where
  AllowedHosts : List String
  CSP : String
  FrameAllowed : Bool
  HPKP : Option HPKPOptions
  HSTS : Option HSTSOptions
  SSLForced : Bool
deriving DecidableEq

/-- `hpkpHeader` from handler.go. The source takes `*Options` and only
dereferences `o.HPKP` (callers guarantee it non-nil), so the embedding
takes the dereferenced `HPKPOptions` directly. The pin list is joined by
`"; "` via the source's accumulating loop, followed by
`fmt.Sprintf("; %.f", o.HPKP.MaxAge.Seconds())` — note the format string
has no `max-age=` label — then the optional suffixes. -/
def hpkpHeader (hp : HPKPOptions) : Except String String :=
  if hp.Keys.length = 0 then
    Except.error "secure: at least one key must be set when using HPKP"
  else if hp.MaxAge = 0 then
    Except.error "secure: max age must be set when using HPKP"
  else
    let v := hp.Keys.foldl
      (fun v key => (if v = "" then v else v ++ "; ") ++ ("pin-sha256=" ++ goQuote key)) ""
    let v := v ++ ("; " ++ fmtSeconds hp.MaxAge)
    let v := if hp.IncludeSubdomains then v ++ "; includeSubdomains" else v
    let v := if hp.ReportURI = "" then v else v ++ ("; report-uri=" ++ goQuote hp.ReportURI)
    Except.ok v

/-- `hstsHeader` from handler.go. The source takes `*Options`, reads
`o.SSLForced`, and dereferences `o.HSTS` (callers guarantee it non-nil);
the embedding takes the dereferenced `HSTSOptions` alongside the parent
options. The preload age check `o.HSTS.MaxAge < HSTSPreloadMinAge`
compares the duration in nanoseconds against the bare constant, exactly
as the Go code does. The value starts with
`fmt.Sprintf("; %.f", o.HSTS.MaxAge.Seconds())` appended to the empty
string — a leading separator and no `max-age=` label. -/
def hstsHeader (o : Options) (hs : HSTSOptions) : Except String String :=
  if o.SSLForced = false then
    Except.error "secure: SSLForced must be true when using HSTS"
  else if hs.MaxAge = 0 then
    Except.error "secure: max age must be set when using HSTS"
  else if hs.Preload = true ∧ hs.MaxAge < HSTSPreloadMinAge then
    Except.error "secure: max age must be at least eighteen weeks when using HSTS preload"
  else if hs.Preload = true ∧ hs.IncludeSubdomains = false then
    Except.error "secure: subdomains must be included when using HSTS preload"
  else
    let v := "" ++ ("; " ++ fmtSeconds hs.MaxAge)
    let v := if hs.IncludeSubdomains then v ++ "; includeSubdomains" else v
    let v := if hs.Preload then v ++ "; preload" else v
    Except.ok v

/-- The validation phase of `Use` (handler.go lines 50–62): with a
non-nil options pointer, attempt to build each configured sub-policy's
header and panic (here: return the error) on the first failure. -/
def useValidate (options : Option Options) : Except String Unit :=
  match options with
  | none => Except.ok ()
  | some o =>
      match (match o.HPKP with
             | some hp => (hpkpHeader hp).map (fun _ => ())
             | none => Except.ok ()) with
      | Except.error e => Except.error e
      | Except.ok _ =>
          match o.HSTS with
          | some hs => (hstsHeader o hs).map (fun _ => ())
          | none => Except.ok ()

/-- A `net/url.URL` as far as this package reads or writes it: the
scheme, the host, and an opaque remainder (path, query, …) that the
handler never touches. `url.String()` serializes all three; the redirect
target below is recorded as the `URL` value itself. -/
structure URL where
  Scheme : String
  Host : String
  Rest : String
deriving DecidableEq

/-- The parts of an `*http.Request` the handler reads: its URL, whether
`Request.TLS` is non-nil, and its header map (modelled as an association
list; `Header.Get` returns the first value, or `""` when absent). -/
structure Request where
  url : URL
  tlsPresent : Bool
  headers : List (String × String)
deriving DecidableEq

/-- `http.Header.Get`: first value under the key, `""` if absent. -/
def requestHeaderGet (req : Request) (k : String) : String :=
  (List.lookup k req.headers).getD ""

/-- `Header().Set` on the response header map: replace any existing
values under the key with the single given one. -/
def setHeader (hs : List (String × String)) (k v : String) :
    List (String × String) :=
  hs.filter (fun p => p.1 ≠ k) ++ [(k, v)]

/-- Read a response header: the first value under the key, if set (the
keys are pairwise distinct by construction of `setHeader`). -/
def getHeader : List (String × String) → String → Option String
  | [], _ => none
  | (k0, v) :: t, k => if k0 = k then some v else getHeader t k

/-- How one invocation of the handler ends: `http.NotFound`, a
`http.Redirect` with its status code and target URL, a `panic`, or
falling through to `c.Next()`. -/
inductive Outcome where
  | notFound
  | redirect (status : Nat) (target : URL)
  | panicked (msg : String)
  | next
deriving DecidableEq

/-- Whether an outcome is a redirect. -/
def Outcome.isRedirect : Outcome → Bool
  | Outcome.redirect _ _ => true
  | _ => false

/-- What the handler wrote: the response headers it set, and how it
ended. -/
structure Response where
  headers : List (String × String)
  outcome : Outcome
deriving DecidableEq

/-- `isSSL` from handler.go line 79: scheme is https, or TLS state is
present, or the `X-Forwarded-Proto` request header equals `"https"`. -/
def isSSLReq (req : Request) : Bool :=
  req.url.Scheme == "https" || req.tlsPresent ||
    requestHeaderGet req "X-Forwarded-Proto" == "https"

/-- The HPKP step (handler.go lines 89–96): when the connection is SSL
and HPKP options are present, build the header; a build error panics,
success sets `Public-Key-Pins`. Returns either a terminal
response/request pair or the updated header list. -/
def hpkpStep (o : Options) (isSSL : Bool) (req : Request)
    (hs : List (String × String)) :
    (Response × Request) ⊕ List (String × String) :=
  if isSSL then
    match o.HPKP with
    | some hp =>
        match hpkpHeader hp with
        | Except.error e => Sum.inl (⟨hs, Outcome.panicked e⟩, req)
        | Except.ok v => Sum.inr (setHeader hs "Public-Key-Pins" v)
    | none => Sum.inr hs
  else Sum.inr hs

/-- The HSTS step (handler.go lines 98–105): when HSTS options are
present, build the header; a build error panics, success sets
`Strict-Transport-Security`. -/
def hstsStep (o : Options) (req : Request) (hs : List (String × String)) :
    (Response × Request) ⊕ List (String × String) :=
  match o.HSTS with
  | some hsOpts =>
      match hstsHeader o hsOpts with
      | Except.error e => Sum.inl (⟨hs, Outcome.panicked e⟩, req)
      | Except.ok v => Sum.inr (setHeader hs "Strict-Transport-Security" v)
  | none => Sum.inr hs

/-- The production-only section of the handler (handler.go lines 66–105):
host allow-list check, secure-transport detection, forced-upgrade
redirect (which mutates the request's URL in place — the source copies
the `*url.URL` pointer), then the HPKP and HSTS steps. Either terminates
with a response, or falls through with the headers set so far. -/
def prodSection (o : Options) (req : Request) :
    (Response × Request) ⊕ List (String × String) :=
  if 0 < o.AllowedHosts.length ∧ req.url.Host ∉ o.AllowedHosts then
    Sum.inl (⟨[], Outcome.notFound⟩, req)
  else
    if !isSSLReq req && o.SSLForced then
      let url := { req.url with Scheme := "https" }
      let req := { req with url := url }
      Sum.inl (⟨[], Outcome.redirect 301 url⟩, req)
    else
      match hpkpStep o (isSSLReq req) req [] with
      | Sum.inl r => Sum.inl r
      | Sum.inr hs => hstsStep o req hs

/-- Whether `X-Frame-Options: SAMEORIGIN` is set (handler.go line 117):
`options == nil || !options.FrameAllowed`. -/
def frameDenied : Option Options → Bool
  | none => true
  | some o => !o.FrameAllowed

/-- The unconditional tail of the handler (handler.go lines 108–123):
the three CSP headers when a CSP string is configured, the
`X-Frame-Options` header unless frames are explicitly allowed, and the
two fixed hardening headers. -/
def tailHeaders (options : Option Options) (hs0 : List (String × String)) :
    List (String × String) :=
  let hs :=
    match options with
    | some o =>
        if o.CSP = "" then hs0
        else
          setHeader (setHeader (setHeader hs0 "Content-Security-Policy" o.CSP)
            "X-Content-Security-Policy" o.CSP) "X-WebKit-CSP" o.CSP
    | none => hs0
  let hs := if frameDenied options then setHeader hs "X-Frame-Options" "SAMEORIGIN" else hs
  let hs := setHeader hs "X-Content-Type-Options" "nosniff"
  setHeader hs "X-XSS-Protection" "1; mode=block"

/-- One invocation of the installed handler (the closure of handler.go
lines 64–126), with `core.Production` passed explicitly. Returns the
response and the final state of the request (the redirect path mutates
the request's URL through the shared pointer). -/
def serve (production : Bool) (options : Option Options) (req : Request) :
    Response × Request :=
  match options with
  | some o =>
      if production then
        match prodSection o req with
        | Sum.inl r => r
        | Sum.inr hs => (⟨tailHeaders (some o) hs, Outcome.next⟩, req)
      else (⟨tailHeaders (some o) [], Outcome.next⟩, req)
  | none => (⟨tailHeaders none [], Outcome.next⟩, req)

/-! ### Helper lemmas about the header map and the handler's stages -/

theorem getHeader_setHeader_self (hs : List (String × String)) (k v : String) :
    getHeader (setHeader hs k v) k = some v := by
  induction hs with
  | nil => simp [getHeader, setHeader]
  | cons a t ih =>
      rcases a with ⟨k0, v0⟩
      by_cases h : k0 = k
      · simpa [setHeader, h] using ih
      · simpa [setHeader, getHeader, h] using ih

theorem getHeader_setHeader_ne (hs : List (String × String)) (k v k' : String)
    (h : k' ≠ k) : getHeader (setHeader hs k v) k' = getHeader hs k' := by
  induction hs with
  | nil =>
      have hne : k ≠ k' := fun hh => h hh.symm
      simp [getHeader, setHeader, hne]
  | cons a t ih =>
      rcases a with ⟨k0, v0⟩
      by_cases h0 : k0 = k
      · subst h0
        have hne : k0 ≠ k' := fun hh => h hh.symm
        simpa [setHeader, getHeader, hne] using ih
      · by_cases h1 : k0 = k'
        · subst h1
          simp [setHeader, getHeader, List.filter_cons, h0]
        · simpa [setHeader, getHeader, h0, h1] using ih

theorem hpkpStep_inl (o : Options) (b : Bool) (req : Request)
    (hs : List (String × String)) (r : Response × Request)
    (h : hpkpStep o b req hs = Sum.inl r) :
    ∃ e, r.1.outcome = Outcome.panicked e := by
  unfold hpkpStep at h
  cases b with
  | false => simp at h
  | true =>
      cases hB : o.HPKP with
      | none => simp [hB] at h
      | some hp =>
          cases hE : hpkpHeader hp with
          | error e =>
              simp only [hB, hE, if_true] at h
              have h' := Sum.inl.inj h
              subst h'
              exact ⟨e, rfl⟩
          | ok v => simp [hB, hE] at h

theorem hpkpStep_inr (o : Options) (b : Bool) (req : Request)
    (hs hs' : List (String × String))
    (h : hpkpStep o b req hs = Sum.inr hs') (k : String)
    (hk : k ≠ "Public-Key-Pins") :
    getHeader hs' k = getHeader hs k := by
  unfold hpkpStep at h
  cases b with
  | false =>
      simp only [Bool.false_eq_true, if_false, Sum.inr.injEq] at h
      rw [← h]
  | true =>
      cases hB : o.HPKP with
      | none =>
          simp only [hB, if_true, Sum.inr.injEq] at h
          rw [← h]
      | some hp =>
          cases hE : hpkpHeader hp with
          | error e => simp [hB, hE] at h
          | ok v =>
              simp only [hB, hE, if_true, Sum.inr.injEq] at h
              rw [← h]
              exact getHeader_setHeader_ne hs _ v k hk

theorem hstsStep_inl (o : Options) (req : Request)
    (hs : List (String × String)) (r : Response × Request)
    (h : hstsStep o req hs = Sum.inl r) :
    ∃ e, r.1.outcome = Outcome.panicked e := by
  unfold hstsStep at h
  cases hB : o.HSTS with
  | none => simp [hB] at h
  | some hsOpts =>
      cases hE : hstsHeader o hsOpts with
      | error e =>
          simp only [hB, hE] at h
          have h' := Sum.inl.inj h
          subst h'
          exact ⟨e, rfl⟩
      | ok v => simp [hB, hE] at h

theorem hstsStep_inr (o : Options) (req : Request)
    (hs hs' : List (String × String))
    (h : hstsStep o req hs = Sum.inr hs') (k : String)
    (hk : k ≠ "Strict-Transport-Security") :
    getHeader hs' k = getHeader hs k := by
  unfold hstsStep at h
  cases hB : o.HSTS with
  | none =>
      simp only [hB, Sum.inr.injEq] at h
      rw [← h]
  | some hsOpts =>
      cases hE : hstsHeader o hsOpts with
      | error e => simp [hB, hE] at h
      | ok v =>
          simp only [hB, hE, Sum.inr.injEq] at h
          rw [← h]
          exact getHeader_setHeader_ne hs _ v k hk

theorem prodSection_inl_outcome (o : Options) (req : Request)
    (r : Response × Request) (h : prodSection o req = Sum.inl r) :
    r.1.outcome ≠ Outcome.next := by
  unfold prodSection at h
  by_cases hHost : 0 < o.AllowedHosts.length ∧ req.url.Host ∉ o.AllowedHosts
  · rw [if_pos hHost] at h
    have h' := Sum.inl.inj h
    subst h'
    simp
  · rw [if_neg hHost] at h
    by_cases hRed : (!isSSLReq req && o.SSLForced) = true
    · rw [if_pos hRed] at h
      have h' := Sum.inl.inj h
      subst h'
      simp
    · rw [if_neg hRed] at h
      cases hP : hpkpStep o (isSSLReq req) req [] with
      | inl r0 =>
          rw [hP] at h
          have h' := Sum.inl.inj h
          subst h'
          obtain ⟨e, he⟩ := hpkpStep_inl o (isSSLReq req) req [] r0 hP
          simp [he]
      | inr hs =>
          rw [hP] at h
          obtain ⟨e, he⟩ := hstsStep_inl o req hs r h
          simp [he]

theorem prodSection_inr_getHeader (o : Options) (req : Request)
    (hs : List (String × String)) (h : prodSection o req = Sum.inr hs)
    (k : String) (h1 : k ≠ "Public-Key-Pins")
    (h2 : k ≠ "Strict-Transport-Security") :
    getHeader hs k = none := by
  unfold prodSection at h
  by_cases hHost : 0 < o.AllowedHosts.length ∧ req.url.Host ∉ o.AllowedHosts
  · rw [if_pos hHost] at h
    exact absurd h (by simp)
  · rw [if_neg hHost] at h
    by_cases hRed : (!isSSLReq req && o.SSLForced) = true
    · rw [if_pos hRed] at h
      exact absurd h (by simp)
    · rw [if_neg hRed] at h
      cases hP : hpkpStep o (isSSLReq req) req [] with
      | inl r0 =>
          rw [hP] at h
          exact absurd h (by simp)
      | inr hs0 =>
          rw [hP] at h
          have e1 := hpkpStep_inr o (isSSLReq req) req [] hs0 hP k h1
          have e2 := hstsStep_inr o req hs0 hs h k h2
          rw [e2, e1]
          rfl

theorem tailHeaders_xss (opts : Option Options) (hs : List (String × String)) :
    getHeader (tailHeaders opts hs) "X-XSS-Protection" = some "1; mode=block" := by
  unfold tailHeaders
  exact getHeader_setHeader_self _ _ _

theorem tailHeaders_nosniff (opts : Option Options)
    (hs : List (String × String)) :
    getHeader (tailHeaders opts hs) "X-Content-Type-Options" = some "nosniff" := by
  unfold tailHeaders
  rw [getHeader_setHeader_ne _ _ _ _ (by decide)]
  exact getHeader_setHeader_self _ _ _

theorem tailHeaders_frame (opts : Option Options)
    (hs : List (String × String)) :
    getHeader (tailHeaders opts hs) "X-Frame-Options" =
      if frameDenied opts then some "SAMEORIGIN"
      else getHeader hs "X-Frame-Options" := by
  unfold tailHeaders
  rw [getHeader_setHeader_ne _ _ _ _ (by decide),
    getHeader_setHeader_ne _ _ _ _ (by decide)]
  by_cases hF : frameDenied opts = true
  · rw [if_pos hF, if_pos hF]
    exact getHeader_setHeader_self _ _ _
  · rw [if_neg hF, if_neg hF]
    cases opts with
    | none => rfl
    | some o =>
        by_cases hC : o.CSP = ""
        · simp [hC]
        · simp only [hC, if_false]
          rw [getHeader_setHeader_ne _ _ _ _ (by decide),
            getHeader_setHeader_ne _ _ _ _ (by decide),
            getHeader_setHeader_ne _ _ _ _ (by decide)]

theorem serve_next_shape (p : Bool) (opts : Option Options) (req : Request)
    (h : (serve p opts req).1.outcome = Outcome.next) :
    ∃ hs, (serve p opts req).1.headers = tailHeaders opts hs ∧
      getHeader hs "X-Frame-Options" = none := by
  cases opts with
  | none => exact ⟨[], rfl, rfl⟩
  | some o =>
      cases p with
      | false => exact ⟨[], rfl, rfl⟩
      | true =>
          cases hP : prodSection o req with
          | inl r =>
              have hserve : serve true (some o) req = r := by
                simp [serve, hP]
              rw [hserve] at h
              exact absurd h (prodSection_inl_outcome o req r hP)
          | inr hs =>
              have hserve : serve true (some o) req =
                  (⟨tailHeaders (some o) hs, Outcome.next⟩, req) := by
                simp [serve, hP]
              rw [hserve]
              exact ⟨hs, rfl,
                prodSection_inr_getHeader o req hs hP _ (by decide) (by decide)⟩

theorem serve_redirect_eq (o : Options) (req : Request)
    (hHost : o.AllowedHosts = [] ∨ req.url.Host ∈ o.AllowedHosts)
    (hSSL : isSSLReq req = false) (hF : o.SSLForced = true) :
    serve true (some o) req =
      (⟨[], Outcome.redirect 301 { req.url with Scheme := "https" }⟩,
        { req with url := { req.url with Scheme := "https" } }) := by
  have hHost' : ¬(0 < o.AllowedHosts.length ∧ req.url.Host ∉ o.AllowedHosts) := by
    rcases hHost with h | h
    · simp [h]
    · simp [h]
  simp [serve, prodSection, hHost', hSSL, hF]

/-! ### The claims -/

/-- C1: the claim states that a transport-security policy with
`preload = true` passes validation iff its max age is at least
10,886,400 seconds (18 weeks) and `includeSubdomains = true`, and in
particular that a max age of 10,886,300 seconds with both flags set is
rejected. The code is wrong: `MaxAge` is a `time.Duration` counted in
nanoseconds, but `hstsHeader` compares it to the bare constant
`HSTSPreloadMinAge = 10886400`, so the check only requires 10,886,400
nanoseconds (≈ 11 ms), contradicting the constant's own documentation
("the lowest max age usable with HSTS preload") and the error message
("at least eighteen weeks"). Evaluating the builder at the claim's
rejected input (with `sslForced = true` so no other rule interferes)
shows validation succeeding and a header being produced. -/
theorem c1_hsts_preload_accepts_short_max_age :
    hstsHeader
        ⟨[], "", false, none, some ⟨10886300 * 1000000000, true, true⟩, true⟩
        ⟨10886300 * 1000000000, true, true⟩ =
      Except.ok "; 10886300; includeSubdomains; preload" := rfl

/-- C2: the claim states the key-pinning builder emits
`pin-sha256="<key>"` pins joined by `"; "`, then `"; max-age=<seconds>"`,
then the optional suffixes. The code builds the middle segment with
`fmt.Sprintf("; %.f", o.HPKP.MaxAge.Seconds())`, which omits the
`max-age=` directive name required by RFC 7469 (cited by the package's
own documentation): on the spec's own example the produced value is
`pin-sha256="abc="; pin-sha256="def="; 5184000; includeSubdomains;
report-uri="https://example.com/r"`, with a bare `5184000` where
`max-age=5184000` should be. -/
theorem c2_hpkp_header_omits_max_age_label :
    hpkpHeader ⟨["abc=", "def="], 5184000 * 1000000000, true,
        "https://example.com/r"⟩ =
      Except.ok
        "pin-sha256=\"abc=\"; pin-sha256=\"def=\"; 5184000; includeSubdomains; report-uri=\"https://example.com/r\"" := rfl

/-- C3: the claim states the transport-security builder emits
`max-age=<seconds>` first, with no leading separator, then the optional
suffixes. The code builds the value with
`fmt.Sprintf("; %.f", o.HSTS.MaxAge.Seconds())` appended to the empty
string, which both omits the `max-age=` directive name required by
RFC 6797 (cited by the package's own documentation) and starts the value
with a stray `"; "`: for a valid policy (30-day max age, subdomains
included, `sslForced = true`) the produced value is
`; 2592000; includeSubdomains`. -/
theorem c3_hsts_header_leading_separator_no_max_age_label :
    hstsHeader ⟨[], "", false, none, some ⟨2592000 * 1000000000, true, false⟩, true⟩
        ⟨2592000 * 1000000000, true, false⟩ =
      Except.ok "; 2592000; includeSubdomains" := rfl

/-- C4 counterexample: the claim asserts that, in production with a
configuration present, every insecure request under `sslForced = true`
is answered with a permanent redirect. It is false when the host
allow-list is non-empty and does not contain the request's host: the
host check runs first and the handler answers not-found instead — here
the request is insecure (plain scheme, no TLS, no forwarded-proto
header) and `SSLForced = true`, yet the outcome is not a redirect. -/
theorem c4_counterexample_host_check_preempts_redirect :
    (serve true (some ⟨["example.com"], "", false, none, none, true⟩)
        ⟨⟨"http", "evil.com", "/"⟩, false, []⟩).1.outcome.isRedirect = false ∧
    isSSLReq ⟨⟨"http", "evil.com", "/"⟩, false, []⟩ = false := by
  decide

/-- C4 (amended): in production with a configuration present, provided
the host check passes (empty allow-list, or the request's host is
allowed), an insecure request with `sslForced = true` is answered by a
permanent (301) redirect to the same URL with its scheme rewritten to
`https`, with an empty response-header list — none of the security
headers is set — and the chain is terminated (the outcome is the
redirect, not `next`). -/
theorem c4_forced_upgrade_redirect (o : Options) (req : Request)
    (hHost : o.AllowedHosts = [] ∨ req.url.Host ∈ o.AllowedHosts)
    (hSSL : isSSLReq req = false) (hF : o.SSLForced = true) :
    serve true (some o) req =
      (⟨[], Outcome.redirect 301 { req.url with Scheme := "https" }⟩,
        { req with url := { req.url with Scheme := "https" } }) :=
  serve_redirect_eq o req hHost hSSL hF

/-- C4 witness: the amended redirect theorem applied to a concrete
insecure request with an empty allow-list. -/
theorem c4_forced_upgrade_redirect_witness :
    ((⟨[], "", false, none, none, true⟩ : Options).AllowedHosts = [] ∨
        "example.com" ∈ (⟨[], "", false, none, none, true⟩ : Options).AllowedHosts) ∧
    isSSLReq ⟨⟨"http", "example.com", "/a"⟩, false, []⟩ = false ∧
    (⟨[], "", false, none, none, true⟩ : Options).SSLForced = true ∧
    serve true (some ⟨[], "", false, none, none, true⟩)
        ⟨⟨"http", "example.com", "/a"⟩, false, []⟩ =
      (⟨[], Outcome.redirect 301 ⟨"https", "example.com", "/a"⟩⟩,
        ⟨⟨"https", "example.com", "/a"⟩, false, []⟩) :=
  ⟨Or.inl rfl, by decide, rfl,
    c4_forced_upgrade_redirect _ _ (Or.inl rfl) (by decide) rfl⟩

/-- C5: in production, when the allow-list is non-empty and the
request's host is not in it, the handler answers not-found with no
response header set, no redirect, and without falling through to the
next stage, leaving the request untouched. -/
theorem c5_host_not_allowed_not_found (o : Options) (req : Request)
    (h1 : 0 < o.AllowedHosts.length) (h2 : req.url.Host ∉ o.AllowedHosts) :
    serve true (some o) req = (⟨[], Outcome.notFound⟩, req) := by
  simp [serve, prodSection, h1, h2]

/-- C5 witness: the host-rejection theorem applied to a concrete
disallowed host. -/
theorem c5_host_not_allowed_not_found_witness :
    0 < (⟨["example.com"], "", false, none, none, true⟩ : Options).AllowedHosts.length ∧
    "evil.com" ∉ (⟨["example.com"], "", false, none, none, true⟩ : Options).AllowedHosts ∧
    serve true (some ⟨["example.com"], "", false, none, none, true⟩)
        ⟨⟨"http", "evil.com", "/"⟩, false, []⟩ =
      (⟨[], Outcome.notFound⟩, ⟨⟨"http", "evil.com", "/"⟩, false, []⟩) :=
  ⟨by decide, by decide,
    c5_host_not_allowed_not_found _ _ (by decide) (by decide)⟩

/-- C6: a key-pinning policy with an empty key list or a zero max age
fails validation with one of the two missing-required-field errors, no
header value is produced (the builder returns the error, not a value),
and the setup-time validation of `Use` fails with that same error, so no
handler is ever installed under that configuration. -/
theorem c6_hpkp_missing_required_field (o : Options) (hp : HPKPOptions)
    (hOpt : o.HPKP = some hp) (h : hp.Keys = [] ∨ hp.MaxAge = 0) :
    ∃ e, hpkpHeader hp = Except.error e ∧
      useValidate (some o) = Except.error e ∧
      (e = "secure: at least one key must be set when using HPKP" ∨
        e = "secure: max age must be set when using HPKP") := by
  have hErr : ∃ e, hpkpHeader hp = Except.error e ∧
      (e = "secure: at least one key must be set when using HPKP" ∨
        e = "secure: max age must be set when using HPKP") := by
    rcases h with h | h
    · exact ⟨_, by simp [hpkpHeader, h], Or.inl rfl⟩
    · by_cases hk : hp.Keys.length = 0
      · exact ⟨_, by simp [hpkpHeader, hk], Or.inl rfl⟩
      · exact ⟨_, by simp [hpkpHeader, hk, h], Or.inr rfl⟩
  obtain ⟨e, he, hm⟩ := hErr
  refine ⟨e, he, ?_, hm⟩
  simp [useValidate, hOpt, he, Except.map]

/-- C6 witness: the missing-required-field theorem applied to a
configuration pinning no keys. -/
theorem c6_hpkp_missing_required_field_witness :
    (⟨[], "", false, some ⟨[], 100, false, ""⟩, none, false⟩ : Options).HPKP =
        some ⟨[], 100, false, ""⟩ ∧
    ((⟨[], 100, false, ""⟩ : HPKPOptions).Keys = [] ∨
      (⟨[], 100, false, ""⟩ : HPKPOptions).MaxAge = 0) ∧
    ∃ e, hpkpHeader ⟨[], 100, false, ""⟩ = Except.error e ∧
      useValidate (some ⟨[], "", false, some ⟨[], 100, false, ""⟩, none, false⟩) =
        Except.error e ∧
      (e = "secure: at least one key must be set when using HPKP" ∨
        e = "secure: max age must be set when using HPKP") :=
  ⟨rfl, Or.inl rfl,
    c6_hpkp_missing_required_field _ _ rfl (Or.inl rfl)⟩

/-- C7: whenever the parent configuration has `sslForced = false`, the
transport-security builder fails — with the dedicated error — regardless
of the policy's max age, subdomain, and preload fields. -/
theorem c7_hsts_requires_ssl_forced (o : Options) (hs : HSTSOptions)
    (_hOpt : o.HSTS = some hs) (h : o.SSLForced = false) :
    hstsHeader o hs =
      Except.error "secure: SSLForced must be true when using HSTS" := by
  simp [hstsHeader, h]

/-- C7 witness: the theorem applied to a configuration with
`SSLForced = false` and an otherwise maximal policy. -/
theorem c7_hsts_requires_ssl_forced_witness :
    (⟨[], "", false, none, some ⟨31536000000000000, true, true⟩, false⟩ : Options).HSTS =
        some ⟨31536000000000000, true, true⟩ ∧
    (⟨[], "", false, none, some ⟨31536000000000000, true, true⟩, false⟩ : Options).SSLForced =
        false ∧
    hstsHeader ⟨[], "", false, none, some ⟨31536000000000000, true, true⟩, false⟩
        ⟨31536000000000000, true, true⟩ =
      Except.error "secure: SSLForced must be true when using HSTS" :=
  ⟨rfl, rfl, c7_hsts_requires_ssl_forced _ _ rfl rfl⟩

/-- C8 counterexample: the claim asserts that every response produced by
the handler carries `X-Content-Type-Options: nosniff` and
`X-XSS-Protection: 1; mode=block`, with no configuration able to
suppress them. It is false: in production, a configuration with a
non-empty allow-list that rejects the request's host produces a
not-found response on which the handler set neither header (the
short-circuit happens before the fixed headers are written). -/
theorem c8_counterexample_not_found_lacks_fixed_headers :
    getHeader (serve true (some ⟨["example.com"], "", false, none, none, true⟩)
        ⟨⟨"http", "evil.com", "/"⟩, false, []⟩).1.headers
      "X-Content-Type-Options" = none ∧
    getHeader (serve true (some ⟨["example.com"], "", false, none, none, true⟩)
        ⟨⟨"http", "evil.com", "/"⟩, false, []⟩).1.headers
      "X-XSS-Protection" = none := by
  decide

/-- C8 (amended): on every response that is not short-circuited — i.e.
whenever the handler falls through to the next stage — both fixed
hardening headers are present with their exact values, for every mode,
every configuration (present or absent), and every request. The
short-circuiting not-found, redirect, and panic responses set neither. -/
theorem c8_fixed_headers_on_every_next (p : Bool) (opts : Option Options)
    (req : Request) (h : (serve p opts req).1.outcome = Outcome.next) :
    getHeader (serve p opts req).1.headers "X-Content-Type-Options" =
      some "nosniff" ∧
    getHeader (serve p opts req).1.headers "X-XSS-Protection" =
      some "1; mode=block" := by
  obtain ⟨hs, hEq, -⟩ := serve_next_shape p opts req h
  rw [hEq]
  exact ⟨tailHeaders_nosniff _ _, tailHeaders_xss _ _⟩

/-- C8 witness: the amended theorem applied to a development-mode
request with no configuration. -/
theorem c8_fixed_headers_on_every_next_witness :
    (serve false none ⟨⟨"http", "example.com", "/"⟩, false, []⟩).1.outcome =
      Outcome.next ∧
    getHeader (serve false none ⟨⟨"http", "example.com", "/"⟩, false, []⟩).1.headers
      "X-Content-Type-Options" = some "nosniff" ∧
    getHeader (serve false none ⟨⟨"http", "example.com", "/"⟩, false, []⟩).1.headers
      "X-XSS-Protection" = some "1; mode=block" :=
  ⟨rfl,
    c8_fixed_headers_on_every_next false none
      ⟨⟨"http", "example.com", "/"⟩, false, []⟩ rfl⟩

/-- C9 counterexample: the claim asserts that for every configuration
and request, `X-Frame-Options` is omitted iff `frameEmbeddingAllowed`
is true. It is false: here `FrameAllowed = false`, yet the production
host check rejects the request and the resulting not-found response
carries no `X-Frame-Options` header. -/
theorem c9_counterexample_not_found_lacks_frame_header :
    (⟨["example.com"], "", false, none, none, true⟩ : Options).FrameAllowed
      = false ∧
    getHeader (serve true (some ⟨["example.com"], "", false, none, none, true⟩)
        ⟨⟨"http", "evil.com", "/"⟩, false, []⟩).1.headers
      "X-Frame-Options" = none := by
  decide

/-- C9 (amended): on every response that is not short-circuited — i.e.
whenever the handler falls through to the next stage — the
`X-Frame-Options` header is omitted iff frame embedding is explicitly
allowed by a present configuration, and otherwise (including when no
configuration is supplied) it is present with value `SAMEORIGIN`. -/
theorem c9_frame_header_iff_on_next (p : Bool) (opts : Option Options)
    (req : Request) (h : (serve p opts req).1.outcome = Outcome.next) :
    getHeader (serve p opts req).1.headers "X-Frame-Options" =
      (if frameDenied opts then some "SAMEORIGIN" else none) := by
  obtain ⟨hs, hEq, hNone⟩ := serve_next_shape p opts req h
  rw [hEq, tailHeaders_frame]
  by_cases hF : frameDenied opts = true
  · rw [if_pos hF, if_pos hF]
  · rw [if_neg hF, if_neg hF]
    exact hNone

/-- C9 witness: the amended theorem applied to a configuration that
allows frame embedding (header omitted) in development mode. -/
theorem c9_frame_header_iff_on_next_witness :
    (serve false (some ⟨[], "", true, none, none, false⟩)
        ⟨⟨"http", "example.com", "/"⟩, false, []⟩).1.outcome = Outcome.next ∧
    getHeader (serve false (some ⟨[], "", true, none, none, false⟩)
        ⟨⟨"http", "example.com", "/"⟩, false, []⟩).1.headers
      "X-Frame-Options" =
      (if frameDenied (some ⟨[], "", true, none, none, false⟩) then
        some "SAMEORIGIN" else none) :=
  ⟨rfl,
    c9_frame_header_iff_on_next false (some ⟨[], "", true, none, none, false⟩)
      ⟨⟨"http", "example.com", "/"⟩, false, []⟩ rfl⟩

/-- C10: when the forced-upgrade redirect fires (host check passed,
request not secure, `sslForced = true`), the handler mutates the
incoming request's own URL object — the source copies the `*url.URL`
pointer, not the value — so the request observed afterwards has scheme
`https` and is different from the incoming request (which, being
insecure, had a non-`https` scheme). -/
theorem c10_redirect_mutates_request_url (o : Options) (req : Request)
    (hHost : o.AllowedHosts = [] ∨ req.url.Host ∈ o.AllowedHosts)
    (hSSL : isSSLReq req = false) (hF : o.SSLForced = true) :
    (serve true (some o) req).2.url.Scheme = "https" ∧
    (serve true (some o) req).2 ≠ req := by
  have h := serve_redirect_eq o req hHost hSSL hF
  have hscheme : req.url.Scheme ≠ "https" := by
    intro hh
    simp [isSSLReq, hh] at hSSL
  constructor
  · rw [h]
  · rw [h]
    intro hEq
    apply hscheme
    have hc := congrArg (fun r : Request => r.url.Scheme) hEq
    simpa using hc.symm

/-- C10 witness: the mutation theorem applied to a concrete insecure
request. -/
theorem c10_redirect_mutates_request_url_witness :
    ((⟨["a.example"], "", false, none, none, true⟩ : Options).AllowedHosts = [] ∨
      "a.example" ∈ (⟨["a.example"], "", false, none, none, true⟩ : Options).AllowedHosts) ∧
    isSSLReq ⟨⟨"http", "a.example", "/x"⟩, false, []⟩ = false ∧
    (⟨["a.example"], "", false, none, none, true⟩ : Options).SSLForced = true ∧
    (serve true (some ⟨["a.example"], "", false, none, none, true⟩)
        ⟨⟨"http", "a.example", "/x"⟩, false, []⟩).2.url.Scheme = "https" ∧
    (serve true (some ⟨["a.example"], "", false, none, none, true⟩)
        ⟨⟨"http", "a.example", "/x"⟩, false, []⟩).2 ≠
      ⟨⟨"http", "a.example", "/x"⟩, false, []⟩ := by
  refine ⟨Or.inr (by decide), by decide, rfl, ?_, ?_⟩
  · exact (c10_redirect_mutates_request_url _ _ (Or.inr (by decide)) (by decide) rfl).1
  · exact (c10_redirect_mutates_request_url _ _ (Or.inr (by decide)) (by decide) rfl).2

end Secure
